import Mathlib

/-!
Shallow embedding of the WhatsApp summarizer bot (src/main.py) and proofs
about its message retention and filtering engine.

Modelling conventions:
* A Python `dict` with string keys is an insertion-ordered association list
  (`List (String × _)`); `alookup`/`aset` mirror `d[k]` reads and `d[k] = v`
  writes, and `Store.ddIndex` mirrors `defaultdict.__getitem__`, which
  inserts the default value (a fresh empty list) when the key is absent.
* `datetime` values are integers (seconds); `timedelta(hours=1)` is 3600.
  `datetime.now()` and `now.replace(hour=0, ...)` are passed in as explicit
  `now` / `start_of_day` parameters, one per call site in the source.
* Python computes estimated token counts as `chars / 4` in floating point;
  every quantity is an exact multiple of 1/4 (and far below 2^53), so all
  comparisons against the 8000-token budget are equivalent to integer
  comparisons of character counts against 8000 * 4 = 32000.  The embedding
  therefore works in character units throughout.
* The external collaborators (Anthropic API calls) are opaque: the
  summarizer is a function `String → Except Unit String` applied to the
  formatted chat text, and the intent classifier's protected block
  (API call, code-fence strip, `json.loads`) is summarised by its outcome,
  an `Except Unit PyVal`; any exception raised inside the corresponding
  `try` block is the `.error` case.
-/

/-- A stored group message: the dict built in `store_group_message`
(src/main.py:386-391) with keys `author`, `sender`, `text`, `timestamp`. -/
structure Msg where
  author : String
  sender : String
  text : String
  timestamp : Int
deriving DecidableEq, Repr

/-- Ordered association-list lookup, mirroring Python `d.get(k)` / `k in d`
on an insertion-ordered dict. -/
def alookup {α : Type} : List (String × α) → String → Option α
  | [], _ => Option.none
  | (k, v) :: rest, key => if k = key then Option.some v else alookup rest key

/-- Ordered association-list write, mirroring Python `d[k] = v`: overwrite in
place when the key exists, otherwise append at the end (insertion order). -/
def aset {α : Type} : List (String × α) → String → α → List (String × α)
  | [], key, v => [(key, v)]
  | (k, w) :: rest, key, v =>
      if k = key then (k, v) :: rest else (k, w) :: aset rest key v

/-- The `group_messages` store (src/main.py:30), a `defaultdict(list)`
keyed by conversation id. -/
abbrev Store := List (String × List Msg)

/-- `group_messages[group_id]` on the defaultdict: returns the stored list if
present; otherwise inserts and returns a fresh empty list. -/
def Store.ddIndex (st : Store) (group_id : String) : List Msg × Store :=
  match alookup st group_id with
  | Option.some v => (v, st)
  | Option.none => ([], st ++ [(group_id, [])])

/-- Read-only view of a conversation's log (empty when unknown). -/
def Store.get (st : Store) (group_id : String) : List Msg :=
  (alookup st group_id).getD []

/-- The `user_last_read` store (src/main.py:31), a `defaultdict(dict)`
mapping author → (group id → last-read timestamp). -/
abbrev CurMap := List (String × List (String × Int))

/-- `user_last_read.get(author, {}).get(group_id)` (src/main.py:262). -/
def CurMap.get2 (cur : CurMap) (author group_id : String) : Option Int :=
  match alookup cur author with
  | Option.some d => alookup d group_id
  | Option.none => Option.none

/-- `user_last_read[author][group_id] = t` (src/main.py:139): the outer
defaultdict creates `{}` for a new author, then the inner dict is written. -/
def CurMap.set2 (cur : CurMap) (author group_id : String) (t : Int) : CurMap :=
  match alookup cur author with
  | Option.some d => aset cur author (aset d group_id t)
  | Option.none => cur ++ [(author, aset [] group_id t)]

/-- `MAX_TOKENS_PER_SUMMARY` (src/main.py:26). -/
def MAX_TOKENS_PER_SUMMARY : Nat := 8000

/-- `ESTIMATED_CHARS_PER_TOKEN` (src/main.py:27). -/
def ESTIMATED_CHARS_PER_TOKEN : Nat := 4

/-- The token budget expressed in character units (see header note on the
exactness of Python's `chars / 4` float arithmetic). -/
def CHAR_BUDGET : Nat := MAX_TOKENS_PER_SUMMARY * ESTIMATED_CHARS_PER_TOKEN

/-- `len(m['sender']) + len(m['text'])`, the per-message character count used
by `apply_token_limit` (src/main.py:296,306). -/
def msgCost (m : Msg) : Nat := m.sender.length + m.text.length

/-- `sum(len(m['sender']) + len(m['text']) for m in messages)`
(src/main.py:296). -/
def costSum (l : List Msg) : Nat := (l.map msgCost).sum

/-- The last `k` elements of a list, as produced by Python's `l[-k:]`. -/
def lastN {α : Type} (k : Nat) (l : List α) : List α := l.drop (l.length - k)

/-- The `for message in reversed(messages)` loop of `apply_token_limit`
(src/main.py:305-313): walk newest-first, stop at the first message that
would push the running total over the budget, building the kept messages
oldest-first via `truncated.insert(0, message)`. -/
def truncLoop : List Msg → Nat → List Msg → List Msg
  | [], _, truncated => truncated
  | message :: rest, current, truncated =>
      if CHAR_BUDGET < current + msgCost message then truncated
      else truncLoop rest (current + msgCost message) (message :: truncated)

/-- `apply_token_limit` (src/main.py:293-316), in character units. -/
def apply_token_limit (messages : List Msg) : List Msg :=
  if costSum messages ≤ CHAR_BUDGET then messages
  else truncLoop messages.reverse 0 []

/-- The last-read half of `filter_messages` (src/main.py:261-267): with an
existing cursor keep strictly newer messages, otherwise fall back to the
last 50. -/
def lastReadStage (messages : List Msg) (author group_id : String)
    (from_last_read : Bool) (cur : CurMap) : List Msg :=
  if from_last_read then
    match CurMap.get2 cur author group_id with
    | Option.some t => messages.filter (fun m => decide (t < m.timestamp))
    | Option.none => if messages.length > 50 then lastN 50 messages else messages
  else messages

/-- The time-window half of `filter_messages` (src/main.py:270-288), applied
to the last-read stage's output. -/
def timeStage (messages : List Msg) (time_filter : String)
    (from_last_read : Bool) (now start_of_day : Int) : List Msg :=
  if time_filter = "today" then
    messages.filter (fun m => decide (start_of_day ≤ m.timestamp))
  else if time_filter = "last_hour" then
    messages.filter (fun m => decide (now - 3600 ≤ m.timestamp))
  else if time_filter = "last_2_hours" then
    messages.filter (fun m => decide (now - 7200 ≤ m.timestamp))
  else if time_filter = "last_day" then
    messages.filter (fun m => decide (now - 86400 ≤ m.timestamp))
  else if time_filter = "all" ∧ from_last_read = false then
    (if messages.length > 100 then lastN 100 messages else messages)
  else messages

/-- `filter_messages` (src/main.py:254-290): the two sequential halves of the
source function composed in order. -/
def filter_messages (messages : List Msg) (author group_id : String)
    (time_filter : String) (from_last_read : Bool) (cur : CurMap)
    (now start_of_day : Int) : List Msg :=
  timeStage (lastReadStage messages author group_id from_last_read cur)
    time_filter from_last_read now start_of_day

/-- `store_group_message` (src/main.py:383-397): defaultdict index, append,
then trim to the last 2000 when over the cap. -/
def store_group_message (st : Store) (group_id author sender_name text : String)
    (now : Int) : Store :=
  let idx := Store.ddIndex st group_id
  let appended := idx.1 ++ [⟨author, sender_name, text, now⟩]
  let st2 := aset idx.2 group_id appended
  if appended.length > 2000 then aset st2 group_id (lastN 2000 appended) else st2

/-- A Python value as produced by `json.loads` on the intent classifier's
reply: the dynamic payload that `handle_group_command` subscripts. -/
inductive PyVal where
  | str (s : String)
  | bool (b : Bool)
  | int (n : Int)
  | list (l : List PyVal)
  | dict (kvs : List (String × PyVal))
  | nil

/-- Python `v == "some string"`: true only for an equal string, false for
every other type (as in `intent['action'] == 'summarize'`). -/
def pyEqStr (v : PyVal) (s : String) : Bool :=
  match v with
  | PyVal.str t => t == s
  | _ => false

/-- Python truthiness, as used by `if from_last_read:`. -/
def pyTruthy : PyVal → Bool
  | PyVal.str s => !(s == "")
  | PyVal.bool b => b
  | PyVal.int n => !(n == 0)
  | PyVal.list l => !l.isEmpty
  | PyVal.dict kvs => !kvs.isEmpty
  | PyVal.nil => false

/-- `d.get(key, default)` on a parsed JSON object. -/
def dictGetD (kvs : List (String × PyVal)) (key : String) (dflt : PyVal) : PyVal :=
  (alookup kvs key).getD dflt

/-- Whether a parsed value is a JSON object: subscripting any non-object
with a string key (`intent['action']`) raises `TypeError`. -/
def PyVal.isDict : PyVal → Bool
  | PyVal.dict _ => true
  | _ => false

/-- The `time_filter` value flows only into string comparisons
(`filter_messages`, `get_time_range_text`), where any non-string compares
unequal to every literal and so takes the permissive pass-through /
default branches; such values are represented by a stand-in string that
likewise matches no branch. -/
def pyToFilterStr (v : PyVal) : String :=
  match v with
  | PyVal.str s => s
  | _ => "<non-string time filter>"

/-- `parse_command_intent` (src/main.py:189-225).  The argument is the
outcome of the `try` block (Anthropic API call, code-fence strip,
`json.loads`): `.ok v` is the successfully parsed value, `.error` any
raised exception, which the `except` clause maps to
`{"action": "unknown"}`. -/
def parse_command_intent (intentOutcome : Except Unit PyVal) : PyVal :=
  match intentOutcome with
  | Except.ok v => v
  | Except.error _ => PyVal.dict [("action", PyVal.str "unknown")]

/-- `generate_summary`'s chat text formatting (src/main.py:338-341). -/
def format_chat (messages : List Msg) : String :=
  String.intercalate "\n" (messages.map (fun m => m.sender ++ ": " ++ m.text))

/-- `generate_summary` (src/main.py:334-380).  `summarizer` is the opaque
external call applied to the formatted chat text; the `except` clause maps
any raised error to the fixed failure sentinel. -/
def generate_summary (messages : List Msg) (time_filter : String)
    (summarizer : String → Except Unit String) : String :=
  match summarizer (format_chat messages) with
  | Except.ok s => s.trim
  | Except.error _ => "❌ Failed to generate summary. Please try again."

/-- `get_time_range_text` (src/main.py:319-331); the final `else` is the
dict-get default `""`. -/
def get_time_range_text (time_filter : String) (from_last_read : Bool) : String :=
  if from_last_read then "since your last read"
  else if time_filter = "today" then "from today"
  else if time_filter = "last_hour" then "from last hour"
  else if time_filter = "last_2_hours" then "from last 2 hours"
  else if time_filter = "last_day" then "from last 24 hours"
  else if time_filter = "all" then ""
  else ""

/-- `generate_group_summary` (src/main.py:228-251).  The store is threaded
through every `group_messages[...]` subscript: the short-circuiting
`group_id not in group_messages or not group_messages[group_id]` check
subscripts only when the key is present.  Returns the reply text together
with the store as left by those subscripts. -/
def generate_group_summary (st : Store) (cur : CurMap) (group_id author : String)
    (time_filter : String) (from_last_read : Bool) (now start_of_day : Int)
    (summarizer : String → Except Unit String) : String × Store :=
  if (alookup st group_id).isNone then ("📝 No messages to summarize yet!", st)
  else
    let p1 := Store.ddIndex st group_id
    if p1.1.isEmpty then ("📝 No messages to summarize yet!", p1.2)
    else
      let p2 := Store.ddIndex p1.2 group_id
      let filtered := filter_messages p2.1 author group_id time_filter
        from_last_read cur now start_of_day
      if filtered.isEmpty then
        ("📝 No messages found for \x27" ++ time_filter ++ "\x27", p2.2)
      else
        let truncated := apply_token_limit filtered
        let summary := generate_summary truncated time_filter summarizer
        let time_info := get_time_range_text time_filter from_last_read
        ("📝 *Summary* (" ++ toString truncated.length ++ " messages " ++ time_info
          ++ "):\n\n" ++ summary, p2.2)

/-- The guidance reply of `handle_group_command`'s `else` branch
(src/main.py:142-147). -/
def guidance_reply (sender_name : String) : String :=
  "@" ++ sender_name ++ " I didn\x27t understand that. Try:\n" ++
  "• \x27summarize today\x27s chat\x27\n" ++
  "• \x27summarize from last read\x27\n" ++
  "• \x27catch me up on last 2 hours\x27"

/-- `handle_group_command` (src/main.py:107-147).  The result is `.ok (reply
text sent, store, cursors)`; `.error` records an exception escaping the
handler (`intent['action']` raises `KeyError` on a dict without that key
and `TypeError` on a non-dict).  On the summarize path the read cursor is
written after the reply is sent, unconditionally; `cursor_now` is the
`datetime.now()` of that write (src/main.py:139). -/
def handle_group_command (st : Store) (cur : CurMap)
    (group_id author sender_name : String) (intentOutcome : Except Unit PyVal)
    (summarizer : String → Except Unit String)
    (now start_of_day cursor_now : Int) :
    Except String (String × Store × CurMap) :=
  let intent := parse_command_intent intentOutcome
  match intent with
  | PyVal.dict kvs =>
    match alookup kvs "action" with
    | Option.none => Except.error "KeyError"
    | Option.some act =>
      if pyEqStr act "summarize" then
        let time_filter := pyToFilterStr (dictGetD kvs "time_filter" (PyVal.str "all"))
        let from_last_read := pyTruthy (dictGetD kvs "from_last_read" (PyVal.bool false))
        let result := generate_group_summary st cur group_id author time_filter
          from_last_read now start_of_day summarizer
        Except.ok ("@" ++ sender_name ++ "\n\n" ++ result.1, result.2,
          CurMap.set2 cur author group_id cursor_now)
      else
        Except.ok (guidance_reply sender_name, st, cur)
  | _ => Except.error "TypeError"

/-- A well-formed summarize intent, as the classifier is instructed to
produce (src/main.py:197-211). -/
def mkSummarizeIntent (time_filter : String) (from_last_read : Bool) : PyVal :=
  PyVal.dict [("action", PyVal.str "summarize"),
    ("time_filter", PyVal.str time_filter),
    ("from_last_read", PyVal.bool from_last_read)]

/-- A single append event, for stating properties of arbitrary append
sequences against the store. -/
structure AppendEvent where
  group_id : String
  author : String
  sender : String
  text : String
  ts : Int

/-- Replay a sequence of `store_group_message` calls against an initially
empty store. -/
def runAppends (events : List AppendEvent) : Store :=
  events.foldl
    (fun st e => store_group_message st e.group_id e.author e.sender e.text e.ts) []

/-- The message a given append event stores. -/
def eventMsg (e : AppendEvent) : Msg := ⟨e.author, e.sender, e.text, e.ts⟩

/-! ### Lemmas about the budget truncator -/

/-- Greedy newest-first selection with a remaining budget: the functional
core of the `reversed(messages)` loop. -/
def greedyTake : List Msg → Nat → List Msg
  | [], _ => []
  | m :: rest, b => if b < msgCost m then [] else m :: greedyTake rest (b - msgCost m)

theorem costSum_nil : costSum [] = 0 := rfl

theorem costSum_cons (m : Msg) (l : List Msg) :
    costSum (m :: l) = msgCost m + costSum l := by
  simp [costSum]

theorem costSum_append (l₁ l₂ : List Msg) :
    costSum (l₁ ++ l₂) = costSum l₁ + costSum l₂ := by
  simp [costSum]

theorem costSum_reverse (l : List Msg) : costSum l.reverse = costSum l := by
  induction l with
  | nil => rfl
  | cons m rest ih =>
      simp [costSum_cons, costSum_append, costSum_nil, ih, Nat.add_comm]

theorem truncLoop_eq_greedyTake (r : List Msg) :
    ∀ current acc, current ≤ CHAR_BUDGET →
      truncLoop r current acc = (greedyTake r (CHAR_BUDGET - current)).reverse ++ acc := by
  induction r with
  | nil => intro current acc _; simp [truncLoop, greedyTake]
  | cons m rest ih =>
      intro current acc hc
      by_cases h : CHAR_BUDGET < current + msgCost m
      · have h2 : CHAR_BUDGET - current < msgCost m := by omega
        simp [truncLoop, greedyTake, h, h2]
      · have h2 : ¬ CHAR_BUDGET - current < msgCost m := by omega
        have h3 : current + msgCost m ≤ CHAR_BUDGET := by omega
        have h4 : CHAR_BUDGET - (current + msgCost m)
            = CHAR_BUDGET - current - msgCost m := by omega
        simp [truncLoop, greedyTake, h, h2, ih (current + msgCost m) (m :: acc) h3, h4]

theorem greedyTake_front (r : List Msg) :
    ∀ b, ∃ t, greedyTake r b ++ t = r := by
  induction r with
  | nil => intro b; exact ⟨[], rfl⟩
  | cons m rest ih =>
      intro b
      by_cases h : b < msgCost m
      · exact ⟨m :: rest, by simp [greedyTake, h]⟩
      · obtain ⟨t, ht⟩ := ih (b - msgCost m)
        exact ⟨t, by simp [greedyTake, h, ht]⟩

theorem greedyTake_cost (r : List Msg) :
    ∀ b, costSum (greedyTake r b) ≤ b := by
  induction r with
  | nil => intro b; simp [greedyTake, costSum_nil]
  | cons m rest ih =>
      intro b
      by_cases h : b < msgCost m
      · simp [greedyTake, h, costSum_nil]
      · have := ih (b - msgCost m)
        simp only [greedyTake, h, if_false, costSum_cons]
        omega

theorem greedyTake_max (p : List Msg) :
    ∀ r b t, p ++ t = r → costSum p ≤ b → p.length ≤ (greedyTake r b).length := by
  induction p with
  | nil => intro r b t _ _; simp
  | cons x p' ih =>
      intro r b t hr hc
      subst hr
      rw [costSum_cons] at hc
      have hx : ¬ b < msgCost x := by omega
      have hgt : greedyTake ((x :: p') ++ t) b
          = x :: greedyTake (p' ++ t) (b - msgCost x) := by
        simp [greedyTake, hx]
      rw [hgt, List.length_cons, List.length_cons]
      have h2 := ih (p' ++ t) (b - msgCost x) t rfl (by omega)
      omega

theorem apply_token_limit_over (messages : List Msg)
    (h : ¬ costSum messages ≤ CHAR_BUDGET) :
    apply_token_limit messages = (greedyTake messages.reverse CHAR_BUDGET).reverse := by
  simp [apply_token_limit, h,
    truncLoop_eq_greedyTake messages.reverse 0 [] (Nat.zero_le _)]

/-- C3: if the estimated cost fits the budget the input is returned
unchanged; otherwise what is returned is the largest contiguous suffix
fitting the budget — in particular always a suffix, never reordered. -/
theorem spec_C3_truncate_largest_suffix (messages : List Msg) :
    (costSum messages ≤ CHAR_BUDGET → apply_token_limit messages = messages)
    ∧ apply_token_limit messages <:+ messages
    ∧ costSum (apply_token_limit messages) ≤ CHAR_BUDGET
    ∧ ∀ s, s <:+ messages → costSum s ≤ CHAR_BUDGET →
        s.length ≤ (apply_token_limit messages).length := by
  by_cases h : costSum messages ≤ CHAR_BUDGET
  · refine ⟨fun _ => by simp [apply_token_limit, h], ?_, ?_, ?_⟩
    · simp [apply_token_limit, h, List.suffix_refl]
    · simpa [apply_token_limit, h] using h
    · intro s hs _
      simp only [apply_token_limit, h, if_true]
      exact hs.length_le
  · rw [apply_token_limit_over messages h]
    refine ⟨fun hc => absurd hc h, ?_, ?_, ?_⟩
    · obtain ⟨t, ht⟩ := greedyTake_front messages.reverse CHAR_BUDGET
      refine ⟨t.reverse, ?_⟩
      rw [← List.reverse_append, ht, List.reverse_reverse]
    · rw [costSum_reverse]
      exact greedyTake_cost messages.reverse CHAR_BUDGET
    · intro s hs hc
      obtain ⟨t, ht⟩ := hs
      have hrev : s.reverse ++ t.reverse = messages.reverse := by
        rw [← List.reverse_append, ht]
      have h5 := greedyTake_max s.reverse messages.reverse CHAR_BUDGET t.reverse hrev
        (by rwa [costSum_reverse])
      have h6 : s.reverse.length = s.length := List.length_reverse s
      have h7 : (greedyTake messages.reverse CHAR_BUDGET).reverse.length
          = (greedyTake messages.reverse CHAR_BUDGET).length :=
        List.length_reverse _
      omega

/-- Concrete instantiation discharging the hypotheses of
`spec_C3_truncate_largest_suffix`. -/
theorem spec_C3_witness :
    apply_token_limit [⟨"u", "S", "hi", 1⟩, ⟨"u", "S", "yo", 2⟩]
        = [⟨"u", "S", "hi", 1⟩, ⟨"u", "S", "yo", 2⟩]
    ∧ ([⟨"u", "S", "yo", 2⟩] : List Msg).length
        ≤ (apply_token_limit [⟨"u", "S", "hi", 1⟩, ⟨"u", "S", "yo", 2⟩]).length :=
  ⟨(spec_C3_truncate_largest_suffix _).1 (by decide),
   (spec_C3_truncate_largest_suffix _).2.2.2 [⟨"u", "S", "yo", 2⟩]
     ⟨[⟨"u", "S", "hi", 1⟩], rfl⟩ (by decide)⟩

/-- A message whose cost alone (32004 characters) exceeds the
32000-character budget. -/
def bigText : String := String.mk (List.replicate 32004 'a')

/-- The oversized message. -/
def bigMsg : Msg := { author := "u", sender := "", text := bigText, timestamp := 0 }

/-- A one-message log whose single (hence newest) message exceeds the
budget. -/
def bigLog : List Msg := [bigMsg]

theorem bigText_len : bigText.length = 32004 := by
  have h : bigText = String.mk (List.replicate 32004 'a') := rfl
  rw [h, String.length_mk, List.length_replicate]

theorem msgCost_def (m : Msg) : msgCost m = m.sender.length + m.text.length := rfl

theorem bigMsg_cost : msgCost bigMsg = 32004 := by
  have hs : bigMsg.sender = "" := rfl
  have ht : bigMsg.text = bigText := rfl
  have h0 : ("" : String).length = 0 := rfl
  rw [msgCost_def bigMsg, hs, ht, bigText_len, h0]

/-- C2 counterexample: a non-empty input on which `apply_token_limit`
returns the empty list — the total estimated cost exceeds the budget and
the newest message alone already overflows it, so the greedy walk stops
before including anything. -/
theorem spec_C2_counterexample : bigLog ≠ [] ∧ apply_token_limit bigLog = [] := by
  have hover : ¬ costSum bigLog ≤ CHAR_BUDGET := by
    rw [show costSum bigLog = msgCost bigMsg + costSum [] from costSum_cons bigMsg [],
      bigMsg_cost]
    decide
  constructor
  · simp [bigLog]
  · rw [apply_token_limit_over bigLog hover]
    have hrev : bigLog.reverse = [bigMsg] := by simp [bigLog]
    have hlt : CHAR_BUDGET < msgCost bigMsg := by rw [bigMsg_cost]; decide
    rw [hrev]
    simp [greedyTake, hlt]

/-- C2 amended: the result is empty iff the input is empty or the newest
(last) message's estimated cost alone exceeds the budget. -/
theorem spec_C2_amended :
    apply_token_limit ([] : List Msg) = []
    ∧ ∀ (l : List Msg) (m : Msg),
        (apply_token_limit (l ++ [m]) = [] ↔ CHAR_BUDGET < msgCost m) := by
  refine ⟨by decide, ?_⟩
  intro l m
  have hrev : (l ++ [m]).reverse = m :: l.reverse := by simp
  constructor
  · intro h
    by_contra hc
    by_cases hover : costSum (l ++ [m]) ≤ CHAR_BUDGET
    · rw [apply_token_limit, if_pos hover] at h
      exact absurd h (by simp)
    · rw [apply_token_limit_over _ hover, hrev] at h
      simp [greedyTake, hc] at h
  · intro h
    have hover : ¬ costSum (l ++ [m]) ≤ CHAR_BUDGET := by
      have h1 := costSum_append l [m]
      have h2 : costSum [m] = msgCost m := by simp [costSum]
      omega
    rw [apply_token_limit_over _ hover, hrev]
    simp [greedyTake, h]

/-- Concrete instantiation of `spec_C2_amended`: the oversized newest
message makes the result empty. -/
theorem spec_C2_witness : apply_token_limit ([] ++ [bigMsg]) = [] :=
  (spec_C2_amended.2 [] bigMsg).mpr (by rw [bigMsg_cost]; decide)

/-! ### Lemmas about the message filter -/

theorem lastN_length_le {α : Type} (k : Nat) (l : List α) : (lastN k l).length ≤ k := by
  simp only [lastN, List.length_drop]
  omega

theorem lastN_of_le {α : Type} {k : Nat} {l : List α} (h : l.length ≤ k) :
    lastN k l = l := by
  simp only [lastN, Nat.sub_eq_zero_of_le h, List.drop_zero]

theorem lastN_sublist {α : Type} (k : Nat) (l : List α) : List.Sublist (lastN k l) l :=
  List.drop_sublist _ _

/-- The `l[-n:] if len(l) > n else l` idiom always equals the last-`n`
slice. -/
theorem cap_eq_lastN {α : Type} (n : Nat) (l : List α) :
    (if l.length > n then lastN n l else l) = lastN n l := by
  split
  · rfl
  · exact (lastN_of_le (by omega)).symm

/-- Whatever the time filter, the time-window stage only removes messages
(keeping order): its output is a sublist of its input. -/
theorem timeStage_sublist (ms : List Msg) (tf : String) (flr : Bool)
    (now sod : Int) : List.Sublist (timeStage ms tf flr now sod) ms := by
  unfold timeStage
  repeat' split
  all_goals first
    | exact List.filter_sublist _
    | exact List.Sublist.refl _
    | exact List.drop_sublist _ _

/-- With `time_filter = "all"` and `from_last_read = true` the time-window
stage passes its input through unchanged (the last-100 cap applies only
when `from_last_read` is false). -/
theorem timeStage_all_true (ms : List Msg) (now sod : Int) :
    timeStage ms "all" true now sod = ms := by
  simp [timeStage]

/-- C7: with `time_filter = "all"` and `from_last_read = false`, the filter
returns exactly the last `min(n, 100)` messages, in original order. -/
theorem spec_C7_filter_all_caps_100 (l : List Msg) (a g : String) (cur : CurMap)
    (now sod : Int) :
    filter_messages l a g "all" false cur now sod = lastN 100 l := by
  unfold filter_messages lastReadStage
  simp [timeStage, cap_eq_lastN]

/-- C5: with an existing read cursor at `T`, `from_last_read = true` keeps
only messages with timestamp strictly greater than `T`, in original order
(a sublist of the strict filter for every time filter), and with
`time_filter = "all"` the result is exactly the strict filter. -/
theorem spec_C5_cursor_strict (l : List Msg) (a g tf : String) (cur : CurMap)
    (now sod T : Int) (h : CurMap.get2 cur a g = Option.some T) :
    List.Sublist (filter_messages l a g tf true cur now sod)
        (l.filter (fun m => decide (T < m.timestamp)))
    ∧ filter_messages l a g "all" true cur now sod
        = l.filter (fun m => decide (T < m.timestamp)) := by
  have h1 : lastReadStage l a g true cur
      = l.filter (fun m => decide (T < m.timestamp)) := by
    simp [lastReadStage, h]
  constructor
  · unfold filter_messages
    rw [h1]
    exact timeStage_sublist _ tf true now sod
  · unfold filter_messages
    rw [h1, timeStage_all_true]

/-- Concrete instantiation (the spec's scenario: log `[A@1, B@2, C@3, D@4]`,
cursor at 2) discharging the hypothesis of `spec_C5_cursor_strict`. -/
theorem spec_C5_witness :
    filter_messages [⟨"a", "S", "A", 1⟩, ⟨"a", "S", "B", 2⟩, ⟨"a", "S", "C", 3⟩,
        ⟨"a", "S", "D", 4⟩] "u" "g" "all" true [("u", [("g", 2)])] 100 0
      = ([⟨"a", "S", "A", 1⟩, ⟨"a", "S", "B", 2⟩, ⟨"a", "S", "C", 3⟩,
        ⟨"a", "S", "D", 4⟩] : List Msg).filter (fun m => decide ((2 : Int) < m.timestamp)) :=
  (spec_C5_cursor_strict _ "u" "g" "all" [("u", [("g", 2)])] 100 0 2 rfl).2

/-- C6: with no read cursor, `from_last_read = true` falls back to the last
50 messages: for every time filter the result is a sublist of the last 50
(so at most 50 messages), and with `time_filter = "all"` it is exactly the
last `min(n, 50)` messages, with no further windowing. -/
theorem spec_C6_no_cursor_last50 (l : List Msg) (a g tf : String) (cur : CurMap)
    (now sod : Int) (h : CurMap.get2 cur a g = Option.none) :
    List.Sublist (filter_messages l a g tf true cur now sod) (lastN 50 l)
    ∧ (filter_messages l a g tf true cur now sod).length ≤ 50
    ∧ filter_messages l a g "all" true cur now sod = lastN 50 l := by
  have h1 : lastReadStage l a g true cur = lastN 50 l := by
    simp [lastReadStage, h, cap_eq_lastN]
  have hsub : List.Sublist (filter_messages l a g tf true cur now sod) (lastN 50 l) := by
    unfold filter_messages
    rw [h1]
    exact timeStage_sublist _ tf true now sod
  refine ⟨hsub, ?_, ?_⟩
  · exact le_trans hsub.length_le (lastN_length_le 50 l)
  · unfold filter_messages
    rw [h1, timeStage_all_true]

/-- Concrete instantiation (the spec's scenario: three messages, no cursor,
`time_filter = "all"`) discharging the hypothesis of
`spec_C6_no_cursor_last50`. -/
theorem spec_C6_witness :
    filter_messages [⟨"a", "S", "A", 1⟩, ⟨"a", "S", "B", 2⟩, ⟨"a", "S", "C", 3⟩]
        "u" "g" "all" true [] 100 0
      = lastN 50 [⟨"a", "S", "A", 1⟩, ⟨"a", "S", "B", 2⟩, ⟨"a", "S", "C", 3⟩] :=
  (spec_C6_no_cursor_last50 _ "u" "g" "all" [] 100 0 rfl).2.2

/-! ### Lemmas about the conversation store -/

theorem alookup_aset_self {α : Type} (st : List (String × α)) (key : String) (v : α) :
    alookup (aset st key v) key = Option.some v := by
  induction st with
  | nil => simp [aset, alookup]
  | cons p rest ih =>
      obtain ⟨k, w⟩ := p
      by_cases h : k = key
      · simp [aset, alookup, h]
      · simp [aset, alookup, h, ih]

theorem alookup_aset_other {α : Type} (st : List (String × α)) (key c : String)
    (v : α) (hne : c ≠ key) : alookup (aset st key v) c = alookup st c := by
  induction st with
  | nil => simp [aset, alookup, Ne.symm hne]
  | cons p rest ih =>
      obtain ⟨k, w⟩ := p
      by_cases h : k = key
      · subst h
        simp [aset, alookup, Ne.symm hne]
      · by_cases h2 : k = c
        · subst h2
          simp [aset, alookup, h]
        · simp [aset, alookup, h, h2, ih]

theorem alookup_append_last {α : Type} (st : List (String × α)) (key : String)
    (v : α) (h : alookup st key = Option.none) :
    alookup (st ++ [(key, v)]) key = Option.some v := by
  induction st with
  | nil => simp [alookup]
  | cons p rest ih =>
      obtain ⟨k, w⟩ := p
      by_cases h2 : k = key
      · simp [alookup, h2] at h
      · simp only [alookup, h2, if_false, List.cons_append] at h ⊢
        simp [alookup, h2, ih h]

theorem alookup_append_other {α : Type} (st : List (String × α)) (key c : String)
    (v : α) (hne : c ≠ key) : alookup (st ++ [(key, v)]) c = alookup st c := by
  induction st with
  | nil => simp [alookup, Ne.symm hne]
  | cons p rest ih =>
      obtain ⟨k, w⟩ := p
      by_cases h2 : k = c
      · simp [alookup, h2]
      · simp [alookup, h2, ih]

/-- The cap applied after each append: keep the last 2000 when the appended
log exceeds 2000 entries (src/main.py:394-395). -/
def storeCap (l : List Msg) : List Msg :=
  if l.length > 2000 then lastN 2000 l else l

/-- `store_group_message` rewrites the targeted conversation's log to the
capped appended log. -/
theorem store_get_self (st : Store) (g a s txt : String) (ts : Int) :
    Store.get (store_group_message st g a s txt ts) g
      = storeCap (Store.get st g ++ [⟨a, s, txt, ts⟩]) := by
  cases h : alookup st g with
  | none =>
      simp only [store_group_message, Store.ddIndex, h, Store.get, storeCap]
      simp [alookup_aset_self]
  | some v =>
      simp only [store_group_message, Store.ddIndex, h, Store.get, storeCap,
        Option.getD_some]
      split
      · simp [alookup_aset_self]
      · simp [alookup_aset_self]

/-- `store_group_message` leaves every other conversation's log unchanged. -/
theorem store_get_other (st : Store) (g a s txt : String) (ts : Int) (c : String)
    (hne : c ≠ g) :
    Store.get (store_group_message st g a s txt ts) c = Store.get st c := by
  cases h : alookup st g with
  | none =>
      simp only [store_group_message, Store.ddIndex, h, Store.get]
      split
      · rw [alookup_aset_other _ _ _ _ hne, alookup_aset_other _ _ _ _ hne,
          alookup_append_other _ _ _ _ hne]
      · rw [alookup_aset_other _ _ _ _ hne, alookup_append_other _ _ _ _ hne]
  | some v =>
      simp only [store_group_message, Store.ddIndex, h, Store.get]
      split
      · rw [alookup_aset_other _ _ _ _ hne, alookup_aset_other _ _ _ _ hne]
      · rw [alookup_aset_other _ _ _ _ hne]

/-- Appending to a log that is already capped to the last 2000 and re-capping
is the same as capping the full appended history: the key step of the
sliding-window invariant. -/
theorem storeCap_lastN (l : List Msg) (m : Msg) :
    storeCap (lastN 2000 l ++ [m]) = lastN 2000 (l ++ [m]) := by
  by_cases h : l.length < 2000
  · rw [lastN_of_le (by omega)]
    rw [storeCap, if_neg (by simp; omega)]
    exact (lastN_of_le (by simp; omega)).symm
  · have hlen : (lastN 2000 l).length = 2000 := by
      simp only [lastN, List.length_drop]
      omega
    rw [storeCap, if_pos (by simp [hlen])]
    have hidx1 : (lastN 2000 l ++ [m]).length - 2000 = 1 := by
      simp [hlen]
    calc lastN 2000 (lastN 2000 l ++ [m])
        = (lastN 2000 l ++ [m]).drop 1 := by
          show (lastN 2000 l ++ [m]).drop ((lastN 2000 l ++ [m]).length - 2000)
              = (lastN 2000 l ++ [m]).drop 1
          rw [hidx1]
      _ = (lastN 2000 l).drop 1 ++ [m] :=
          List.drop_append_of_le_length (by omega)
      _ = (l.drop (l.length - 2000)).drop 1 ++ [m] := rfl
      _ = l.drop (l.length - 2000 + 1) ++ [m] := by rw [List.drop_drop]
      _ = l.drop (l.length + 1 - 2000) ++ [m] := by
          rw [show l.length - 2000 + 1 = l.length + 1 - 2000 from by omega]
      _ = (l ++ [m]).drop (l.length + 1 - 2000) :=
          (List.drop_append_of_le_length (by omega)).symm
      _ = lastN 2000 (l ++ [m]) := by
          show (l ++ [m]).drop (l.length + 1 - 2000)
              = (l ++ [m]).drop ((l ++ [m]).length - 2000)
          rw [show (l ++ [m]).length - 2000 = l.length + 1 - 2000 from by simp]

/-- C4: after any sequence of appends the stored log for each conversation
has length at most 2000 and equals the last `min(n, 2000)` messages
appended for that conversation, in append order. -/
theorem spec_C4_retention_cap (events : List AppendEvent) (c : String) :
    (Store.get (runAppends events) c).length ≤ 2000
    ∧ Store.get (runAppends events) c
      = lastN 2000 ((events.filter (fun e => e.group_id == c)).map eventMsg) := by
  have key : Store.get (runAppends events) c
      = lastN 2000 ((events.filter (fun e => e.group_id == c)).map eventMsg) := by
    induction events using List.reverseRecOn with
    | nil => simp [runAppends, Store.get, alookup, lastN]
    | append_singleton es e ih =>
        have hrun : runAppends (es ++ [e])
            = store_group_message (runAppends es) e.group_id e.author e.sender
                e.text e.ts := by
          simp [runAppends, List.foldl_append]
        by_cases hc : e.group_id = c
        · subst hc
          rw [hrun, store_get_self, ih, storeCap_lastN]
          simp [eventMsg]
        · rw [hrun, store_get_other _ _ _ _ _ _ _ (fun h => hc h.symm), ih]
          have : (es ++ [e]).filter (fun e => e.group_id == c)
              = es.filter (fun e => e.group_id == c) := by
            simp [List.filter_append, hc]
          rw [this]
  refine ⟨?_, key⟩
  rw [key]
  exact lastN_length_le 2000 _

/-! ### Lemmas about the summary orchestrator -/

theorem ddIndex_of_some (st : Store) (g : String) (v : List Msg)
    (h : alookup st g = Option.some v) : Store.ddIndex st g = (v, st) := by
  simp [Store.ddIndex, h]

/-- Every `group_messages[...]` subscript in `generate_group_summary` happens
after the membership check, so the store comes back exactly as it went in. -/
theorem generate_store_eq (st : Store) (cur : CurMap) (g a tf : String)
    (flr : Bool) (now sod : Int) (summarizer : String → Except Unit String) :
    (generate_group_summary st cur g a tf flr now sod summarizer).2 = st := by
  cases h : alookup st g with
  | none => simp [generate_group_summary, h]
  | some v =>
      simp only [generate_group_summary, Store.ddIndex, h]
      split
      · rfl
      split
      · rfl
      split
      · rfl
      · rfl

/-- C9: producing a summary is read-only on the conversation store: the
filter, truncate and format steps never mutate any conversation's log. -/
theorem spec_C9_summary_read_only (st : Store) (cur : CurMap) (g a tf : String)
    (flr : Bool) (now sod : Int) (summarizer : String → Except Unit String) :
    (generate_group_summary st cur g a tf flr now sod summarizer).2 = st :=
  generate_store_eq st cur g a tf flr now sod summarizer

/-- C10: with no stored messages (id never seen, or present with an empty
log) the summary request returns the empty-log sentinel and the store —
including its set of keys — is exactly unchanged: the membership check
short-circuits before any defaultdict indexing. -/
theorem spec_C10_empty_log_sentinel (st : Store) (cur : CurMap) (g a tf : String)
    (flr : Bool) (now sod : Int) (summarizer : String → Except Unit String)
    (h : alookup st g = Option.none ∨ Store.get st g = []) :
    generate_group_summary st cur g a tf flr now sod summarizer
      = ("📝 No messages to summarize yet!", st) := by
  cases h with
  | inl h => simp [generate_group_summary, h]
  | inr h =>
      cases h2 : alookup st g with
      | none => simp [generate_group_summary, h2]
      | some v =>
          have hv : v = [] := by
            rw [Store.get, h2] at h
            simpa using h
          subst hv
          simp [generate_group_summary, h2, Store.ddIndex]

/-- Concrete instantiation discharging the hypothesis of
`spec_C10_empty_log_sentinel`: a store whose only key holds an empty log. -/
theorem spec_C10_witness :
    generate_group_summary [("g", [])] [] "g" "a" "all" false 0 0
        (fun _ => Except.ok "s")
      = ("📝 No messages to summarize yet!", [("g", [])]) :=
  spec_C10_empty_log_sentinel [("g", [])] [] "g" "a" "all" false 0 0
    (fun _ => Except.ok "s") (Or.inr rfl)

/-! ### Summarizer failure (C1) and malformed intent output (C8) -/

/-- The always-failing external summarizer (the API call raises). -/
def summFail : String → Except Unit String := fun _ => Except.error ()

/-- C1 counterexample initial store: one conversation holding one message. -/
def c1Store : Store := [("g", [⟨"u", "U", "hello", 5⟩])]

/-- The C1 counterexample run: a well-formed summarize intent, a failing
summarizer, initially empty cursors, `datetime.now()` = 100. -/
def c1Run : Except String (String × Store × CurMap) :=
  handle_group_command c1Store [] "g" "u" "U"
    (Except.ok (mkSummarizeIntent "all" false)) summFail 100 0 100

/-- C1 counterexample: when the summarizer raises, the reply does carry the
fixed failure sentinel and the log is unchanged, but the read cursor for
`(user, conversation)` is NOT as it was before the request: it goes from
absent to the current time, because `handle_group_command` writes it after
every summarize-intent command regardless of the summarizer outcome. -/
theorem spec_C1_counterexample :
    c1Run = Except.ok
      ("@U\n\n📝 *Summary* (1 messages ):\n\n❌ Failed to generate summary. Please try again.",
        c1Store, [("u", [("g", 100)])])
    ∧ CurMap.get2 [] "u" "g" = Option.none
    ∧ CurMap.get2 [("u", [("g", 100)])] "u" "g" = Option.some 100 :=
  ⟨rfl, rfl, rfl⟩

/-- C1 amended: on summarizer failure the summary call returns the fixed
failure sentinel and the store is returned unchanged, but the read cursor
for `(user, conversation)` is overwritten with the current time — the
cursor write follows every summarize-intent command, successful or not. -/
theorem spec_C1_amended (st : Store) (cur : CurMap) (g a sn tf : String)
    (flr : Bool) (now sod cnow : Int) :
    generate_summary (Store.get st g) tf summFail
        = "❌ Failed to generate summary. Please try again."
    ∧ handle_group_command st cur g a sn (Except.ok (mkSummarizeIntent tf flr))
        summFail now sod cnow
      = Except.ok ("@" ++ sn ++ "\n\n"
            ++ (generate_group_summary st cur g a tf flr now sod summFail).1,
          st, CurMap.set2 cur a g cnow) := by
  refine ⟨rfl, ?_⟩
  simp [handle_group_command, parse_command_intent, mkSummarizeIntent, alookup,
    dictGetD, pyEqStr, pyToFilterStr, pyTruthy, generate_store_eq]

/-- C8 counterexample: classifier output that parses to a JSON object
without an `action` key (`{}`) reaches `intent['action']` unvalidated, so
the handler escapes with a `KeyError` instead of replying with guidance. -/
theorem spec_C8_counterexample :
    handle_group_command [] [] "g" "u" "U" (Except.ok (PyVal.dict []))
        (fun _ => Except.ok "S") 0 0 0 = Except.error "KeyError" := rfl

/-- C8 amended: output that fails to parse (or a classifier call that
raises) is treated as `action = unknown` and answered with the guidance
message, and so is any parsed object whose `action` key is present but
not `summarize`; but every parsed object lacking the `action` key crashes
the handler with an uncaught `KeyError`, and every parsed non-object
crashes it with an uncaught `TypeError`. -/
theorem spec_C8_amended (st : Store) (cur : CurMap) (g a sn : String)
    (summarizer : String → Except Unit String) (now sod cnow : Int) :
    handle_group_command st cur g a sn (Except.error ()) summarizer now sod cnow
      = Except.ok (guidance_reply sn, st, cur)
    ∧ (∀ kvs v, alookup kvs "action" = Option.some v →
        pyEqStr v "summarize" = false →
        handle_group_command st cur g a sn (Except.ok (PyVal.dict kvs))
          summarizer now sod cnow = Except.ok (guidance_reply sn, st, cur))
    ∧ (∀ kvs, alookup kvs "action" = Option.none →
        handle_group_command st cur g a sn (Except.ok (PyVal.dict kvs))
          summarizer now sod cnow = Except.error "KeyError")
    ∧ (∀ v, PyVal.isDict v = false →
        handle_group_command st cur g a sn (Except.ok v)
          summarizer now sod cnow = Except.error "TypeError") := by
  refine ⟨rfl, ?_, ?_, ?_⟩
  · intro kvs v hv hne
    simp [handle_group_command, parse_command_intent, hv, hne]
  · intro kvs h
    simp [handle_group_command, parse_command_intent, h]
  · intro v hv
    cases v <;> first | rfl | simp [PyVal.isDict] at hv

/-- Concrete instantiations discharging the hypotheses of
`spec_C8_amended`: a parsed intent whose action is `help` (guidance), a
parsed object without an `action` key (`KeyError`), and a parsed string
(`TypeError`). -/
theorem spec_C8_witness :
    handle_group_command [] [] "g" "u" "U"
        (Except.ok (PyVal.dict [("action", PyVal.str "help")]))
        (fun _ => Except.ok "x") 0 0 0
      = Except.ok (guidance_reply "U", [], [])
    ∧ handle_group_command [] [] "g" "u" "U"
        (Except.ok (PyVal.dict [("other", PyVal.int 1)]))
        (fun _ => Except.ok "x") 0 0 0 = Except.error "KeyError"
    ∧ handle_group_command [] [] "g" "u" "U" (Except.ok (PyVal.str "hi"))
        (fun _ => Except.ok "x") 0 0 0 = Except.error "TypeError" :=
  ⟨(spec_C8_amended [] [] "g" "u" "U" (fun _ => Except.ok "x") 0 0 0).2.1
      [("action", PyVal.str "help")] (PyVal.str "help") rfl rfl,
   (spec_C8_amended [] [] "g" "u" "U" (fun _ => Except.ok "x") 0 0 0).2.2.1
      [("other", PyVal.int 1)] rfl,
   (spec_C8_amended [] [] "g" "u" "U" (fun _ => Except.ok "x") 0 0 0).2.2.2
      (PyVal.str "hi") rfl⟩

example : apply_token_limit [⟨"a", "S", "hi", 1⟩] = [⟨"a", "S", "hi", 1⟩] := by decide

example :
    filter_messages [⟨"a", "S", "x", 1⟩, ⟨"a", "S", "y", 2⟩, ⟨"a", "S", "z", 3⟩,
        ⟨"a", "S", "w", 4⟩]
      "u" "g" "all" true [("u", [("g", 2)])] 100 0
      = [⟨"a", "S", "z", 3⟩, ⟨"a", "S", "w", 4⟩] := by decide
